import Mathlib

set_option linter.unnecessarySeqFocus false
set_option linter.unusedVariables false

/-
Verification development for `check-mps-price-telegram.py`, a single-file
polling/alerting monitor.  The main loop of the script is shallowly embedded
below: Python floats become exact rationals (the claims under study concern
control flow and comparisons, not rounding), the Telegram transport and the
on-chain price oracle appear only through their absorbed results (a list of
updates, empty on poll failure, and an `Option` price, `none` on fetch
failure), and the one uncaught exception source in the loop body (the
`float(...)` conversions on regex groups) is modelled with `Except`.
-/

deriving instance DecidableEq for Except

namespace CheckMps

/-- Python `\s` on the ASCII range (the whitespace class used both by the
command regex and by `str.strip`). -/
def isPyWs (c : Char) : Bool :=
  c = ' ' || c = '\t' || c = '\n' || c = '\r' || c = '\x0b' || c = '\x0c'

/-- Embedding of Python `str.strip()`: drop leading and trailing whitespace. -/
def pyStrip (l : List Char) : List Char :=
  ((l.dropWhile isPyWs).reverse.dropWhile isPyWs).reverse

/-- The character class `[\d\.]` of the command regex: a digit or a dot.
Note it admits strings with several dots, such as `1.2.3`. -/
def isDigitDot (c : Char) : Bool :=
  c.isDigit || c = '.'

/-- Match a literal header against the start of the input, returning the rest. -/
def dropHdr : List Char → List Char → Option (List Char)
  | [], rest => some rest
  | _ :: _, [] => none
  | c :: cs, r :: rs => if c = r then dropHdr cs rs else none

/-- Embedding of `re.match(r"^monitor-mps\s+([\d\.]+)\s+([\d\.]+)$", text)`:
the two captured groups on success.  Because the classes `\s` and `[\d.]` are
disjoint, greedy maximal-munch scanning is equivalent to the backtracking
regex, and the decomposition of a matching text is unique. -/
def reMatchMonitorMps (l : List Char) : Option (List Char × List Char) :=
  match dropHdr ("monitor-mps".data) l with
  | none => none
  | some r0 =>
    let w1 := r0.takeWhile isPyWs
    let r1 := r0.dropWhile isPyWs
    let g1 := r1.takeWhile isDigitDot
    let r2 := r1.dropWhile isDigitDot
    let w2 := r2.takeWhile isPyWs
    let r3 := r2.dropWhile isPyWs
    let g2 := r3.takeWhile isDigitDot
    let r4 := r3.dropWhile isDigitDot
    if w1 ≠ [] ∧ g1 ≠ [] ∧ w2 ≠ [] ∧ g2 ≠ [] ∧ r4 = [] then some (g1, g2) else none

/-- Numeric value of a digit character. -/
def digitVal (c : Char) : ℕ :=
  c.toNat - '0'.toNat

/-- Value of a string of decimal digits (base 10, empty string is 0). -/
def digitsVal (l : List Char) : ℕ :=
  l.foldl (fun a c => 10 * a + digitVal c) 0

/-- The digits before the (first) dot. -/
def intPart (l : List Char) : List Char :=
  l.takeWhile (fun c => c ≠ '.')

/-- The digits after the (first) dot; empty when there is no dot. -/
def fracPart (l : List Char) : List Char :=
  (l.dropWhile (fun c => c ≠ '.')).drop 1

/-- Whether a digit/dot string is a valid Python float literal: at least one
digit and at most one dot. -/
def pyFloatOk (l : List Char) : Bool :=
  l.all isDigitDot && l.count '.' ≤ 1 && l.any Char.isDigit

/-- Embedding of Python `float(s)` restricted to the digit/dot strings the
regex can capture: succeeds exactly when the string has at least one digit and
at most one dot (so `float("1.2.3")` and `float(".")` fail, raising
`ValueError` in the script), and returns the exact rational value. -/
def pyFloat (l : List Char) : Option ℚ :=
  if pyFloatOk l then
    some ((digitsVal (intPart l) : ℚ) + (digitsVal (fracPart l) : ℚ) / (10 : ℚ) ^ (fracPart l).length)
  else
    none

/-- The process-wide mutable state of the main loop of the script:
`lower_limit`, `upper_limit` (both `None` at start), the `alert_sent`
hysteresis flag, and the Telegram cursor `last_update_id`. -/
structure MonitorState where
  lower_limit : Option ℚ
  upper_limit : Option ℚ
  alert_sent : Bool
  last_update_id : Option ℤ
deriving DecidableEq, Repr

/-- The state at process start (lines 139-146 of the script). -/
def initialState : MonitorState :=
  { lower_limit := none, upper_limit := none, alert_sent := false, last_update_id := none }

/-- Outbound Telegram messages the loop can send: the limits-updated
confirmation (echoing the accepted bounds) and the out-of-limits alert
(carrying the offending price). -/
inductive Output where
  | confirmation (lower upper : ℚ)
  | alert (price : ℚ)
deriving DecidableEq, Repr

/-- The one uncaught exception the loop body can raise: `ValueError` from
`float(...)` on a regex group that is not a valid float literal. -/
inductive PyErr where
  | valueError
deriving DecidableEq, Repr

/-- A Telegram update as the loop sees it: an optional `update_id` (the loop
skips updates lacking one) and the optional `message.text` payload. -/
structure Update where
  update_id : Option ℤ
  message_text : Option (List Char)
deriving DecidableEq, Repr

/-- Processing of the message text payload of one update (lines
168-184): strip, match the regex, convert both groups with `float`, and on
success replace both limits, clear `alert_sent`, and send the confirmation.
A failing `float` is an uncaught `ValueError`. -/
def applyText (s : MonitorState) (t : List Char) : Except PyErr (MonitorState × List Output) :=
  match reMatchMonitorMps (pyStrip t) with
  | none => .ok (s, [])
  | some (g1, g2) =>
    match pyFloat g1 with
    | none => .error .valueError
    | some new_lower =>
      match pyFloat g2 with
      | none => .error .valueError
      | some new_upper =>
        .ok ({ s with lower_limit := some new_lower, upper_limit := some new_upper,
                      alert_sent := false },
             [Output.confirmation new_lower new_upper])

/-- Processing of one update (lines 163-187): an update without `update_id`
is skipped entirely; otherwise the message text (if any) is processed and the
cursor is then advanced to `update_id + 1`. -/
def processUpdate (s : MonitorState) (u : Update) : Except PyErr (MonitorState × List Output) :=
  match u.update_id with
  | none => .ok (s, [])
  | some i =>
    match u.message_text with
    | none => .ok ({ s with last_update_id := some (i + 1) }, [])
    | some t =>
      match applyText s t with
      | .error e => .error e
      | .ok (s1, o) => .ok ({ s1 with last_update_id := some (i + 1) }, o)

/-- The `for upd in updates` drain of one poll result, in delivered order.
A poll-failure iteration is the `[]` case (the transport wrapper returns an
empty list on failure); the `time.sleep(1)` taken then has no state effect. -/
def processUpdates : MonitorState → List Update → Except PyErr (MonitorState × List Output)
  | s, [] => .ok (s, [])
  | s, u :: us =>
    match processUpdate s u with
    | .error e => .error e
    | .ok (s1, o1) =>
      match processUpdates s1 us with
      | .error e => .error e
      | .ok (s2, o2) => .ok (s2, o1 ++ o2)

/-- The price-check phase of one iteration (lines 193-211): runs only when
both limits are set; `price = none` models `get_token_price()` returning
`None` (its internal `except` absorbs every fetch error).  Out of bounds with
the flag clear sends one alert and sets the flag; in bounds clears the flag. -/
def pricePhase (s : MonitorState) (price : Option ℚ) : MonitorState × List Output :=
  match s.lower_limit, s.upper_limit with
  | some lo, some hi =>
    match price with
    | some p =>
      if p < lo ∨ p > hi then
        if s.alert_sent then (s, [])
        else ({ s with alert_sent := true }, [Output.alert p])
      else
        ({ s with alert_sent := false }, [])
    | none => (s, [])
  | _, _ => (s, [])

/-- One full iteration of the `while True` loop: drain the poll result, then
the price check.  The oracle result is passed as the `price` argument; it is
ignored (and in the script not even requested) while unconfigured. -/
def iteration (s : MonitorState) (updates : List Update) (price : Option ℚ) :
    Except PyErr (MonitorState × List Output) :=
  match processUpdates s updates with
  | .error e => .error e
  | .ok (s1, o1) =>
    let (s2, o2) := pricePhase s1 price
    .ok (s2, o1 ++ o2)

/-- The offset the next `get_telegram_updates(offset=last_update_id)` poll is
issued with. -/
def pollOffset (s : MonitorState) : Option ℤ :=
  s.last_update_id

/-- A run of several iterations, each fed one poll result and one oracle
result. -/
def runSteps : MonitorState → List (List Update × Option ℚ) → Except PyErr (MonitorState × List Output)
  | s, [] => .ok (s, [])
  | s, (ups, pr) :: rest =>
    match iteration s ups pr with
    | .error e => .error e
    | .ok (s1, o1) =>
      match runSteps s1 rest with
      | .error e => .error e
      | .ok (s2, o2) => .ok (s2, o1 ++ o2)

/-- Both limits set: the guard of line 193. -/
def configuredB (s : MonitorState) : Bool :=
  s.lower_limit.isSome && s.upper_limit.isSome

/-- The Alerting state of the machine of the spec: configured with the alert flag
set. -/
def isAlertingB (s : MonitorState) : Bool :=
  configuredB s && s.alert_sent

/-- The Armed state of the machine of the spec: configured with the alert flag
clear. -/
def isArmedB (s : MonitorState) : Bool :=
  configuredB s && !s.alert_sent

/-- The state after evaluating one observed price. -/
def evalStep (s : MonitorState) (p : ℚ) : MonitorState :=
  (pricePhase s (some p)).1

/-- Whether an outbound message is an alert notification. -/
def isAlertOut : Output → Bool
  | .alert _ => true
  | .confirmation _ _ => false

/-- Number of alert notifications sent on evaluating one price. -/
def alertsEmitted (s : MonitorState) (p : ℚ) : ℕ :=
  (pricePhase s (some p)).2.countP isAlertOut

/-- Whether evaluating `p` in state `s` is a transition into Alerting. -/
def transAt (s : MonitorState) (p : ℚ) : Bool :=
  !isAlertingB s && isAlertingB (evalStep s p)

/-- Total alert notifications sent over a sequence of observed prices. -/
def countAlertsRun : MonitorState → List ℚ → ℕ
  | _, [] => 0
  | s, p :: ps => alertsEmitted s p + countAlertsRun (evalStep s p) ps

/-- Total transitions into Alerting over a sequence of observed prices. -/
def countTransRun : MonitorState → List ℚ → ℕ
  | _, [] => 0
  | s, p :: ps => (if transAt s p then 1 else 0) + countTransRun (evalStep s p) ps

/-- The two limits are either both set or both unset. -/
def bothOrNoneB (s : MonitorState) : Bool :=
  s.lower_limit.isSome == s.upper_limit.isSome

/-- Cursor comparison: an unset cursor precedes everything; a set cursor
never becomes unset and never decreases. -/
def cursorLEb : Option ℤ → Option ℤ → Bool
  | none, _ => true
  | some _, none => false
  | some a, some b => decide (a ≤ b)

/-- The transport contract of `getUpdates(offset)`: every returned identifier
is at least the offset (trivially satisfied before any offset is set). -/
def honorsOffset : Option ℤ → List ℤ → Bool
  | none, _ => true
  | some c, ids => ids.all (fun i => decide (c ≤ i))

/-! Helper lemmas about the embedded loop body. -/

/-- Evaluate `pyFloat` from its decidable ingredients. -/
lemma pyFloat_eval (l : List Char) (n m k : ℕ) (hok : pyFloatOk l = true)
    (hi : digitsVal (intPart l) = n) (hf : digitsVal (fracPart l) = m)
    (hk : (fracPart l).length = k) :
    pyFloat l = some ((n : ℚ) + (m : ℚ) / (10 : ℚ) ^ k) := by
  simp [pyFloat, hok, hi, hf, hk]

/-- A successful `applyText` either leaves the state alone with no output, or
replaces both limits, clears the flag, and sends one confirmation. -/
lemma applyText_ok {s : MonitorState} {t : List Char} {s1 : MonitorState} {o : List Output}
    (h : applyText s t = .ok (s1, o)) :
    (s1 = s ∧ o = []) ∨
      ∃ L U, s1 = { s with lower_limit := some L, upper_limit := some U, alert_sent := false } ∧
        o = [Output.confirmation L U] := by
  unfold applyText at h
  split at h
  · left
    cases h
    exact ⟨rfl, rfl⟩
  · split at h
    · cases h
    · split at h
      · cases h
      · right
        cases h
        exact ⟨_, _, rfl, rfl⟩

/-- Exhaustive shape of a successful `processUpdate`: skipped for a missing
identifier, cursor-advance only, or full reconfiguration plus cursor advance. -/
lemma processUpdate_ok_shape {s : MonitorState} {u : Update} {s1 : MonitorState}
    {o : List Output} (h : processUpdate s u = .ok (s1, o)) :
    (u.update_id = none ∧ s1 = s ∧ o = []) ∨
      ∃ i, u.update_id = some i ∧
        ((s1 = { s with last_update_id := some (i + 1) } ∧ o = []) ∨
          ∃ L U, s1 = { s with lower_limit := some L, upper_limit := some U, alert_sent := false, last_update_id := some (i + 1) } ∧
            o = [Output.confirmation L U]) := by
  rcases hid : u.update_id with _ | i
  · unfold processUpdate at h
    simp only [hid] at h
    cases h
    exact .inl ⟨rfl, rfl, rfl⟩
  · right
    refine ⟨i, rfl, ?_⟩
    unfold processUpdate at h
    simp only [hid] at h
    rcases hm : u.message_text with _ | t <;> simp only [hm] at h
    · cases h
      exact .inl ⟨rfl, rfl⟩
    · rcases ha : applyText s t with e | ⟨s2, o2⟩ <;> simp only [ha] at h
      · cases h
      · rcases applyText_ok ha with ⟨rfl, rfl⟩ | ⟨L, U, rfl, rfl⟩
        · cases h
          exact .inl ⟨rfl, rfl⟩
        · cases h
          exact .inr ⟨L, U, rfl, rfl⟩

/-- A successful `processUpdate` on an update with identifier `i` leaves the
cursor at `i + 1`. -/
lemma processUpdate_cursor {s : MonitorState} {u : Update} {i : ℤ} {s1 : MonitorState}
    {o : List Output} (hid : u.update_id = some i)
    (h : processUpdate s u = .ok (s1, o)) :
    s1.last_update_id = some (i + 1) := by
  rcases processUpdate_ok_shape h with ⟨hnone, _, _⟩ | ⟨j, hj, hsh⟩
  · rw [hid] at hnone
    cases hnone
  · rw [hid] at hj
    cases hj
    rcases hsh with ⟨rfl, _⟩ | ⟨L, U, rfl, _⟩ <;> rfl

/-- Command processing only ever sends confirmations, never alerts. -/
lemma processUpdate_out {s : MonitorState} {u : Update} {s1 : MonitorState} {o : List Output}
    (h : processUpdate s u = .ok (s1, o)) :
    ∀ x ∈ o, isAlertOut x = false := by
  intro x hx
  rcases processUpdate_ok_shape h with ⟨_, _, ho⟩ | ⟨i, _, ⟨_, ho⟩ | ⟨L, U, _, ho⟩⟩ <;> subst ho
  · cases hx
  · cases hx
  · rw [List.mem_singleton] at hx
    subst hx
    rfl

/-- A successful `processUpdate` preserves the both-limits-or-neither
invariant. -/
lemma processUpdate_both {s : MonitorState} {u : Update} {s1 : MonitorState} {o : List Output}
    (h : processUpdate s u = .ok (s1, o)) (hb : bothOrNoneB s = true) :
    bothOrNoneB s1 = true := by
  rcases processUpdate_ok_shape h with ⟨_, rfl, _⟩ | ⟨i, _, ⟨rfl, _⟩ | ⟨L, U, rfl, _⟩⟩
  · exact hb
  · exact hb
  · rfl

/-- Batch drain: outputs are confirmations only. -/
lemma processUpdates_out {s : MonitorState} {ups : List Update} {s1 : MonitorState}
    {o : List Output} (h : processUpdates s ups = .ok (s1, o)) :
    ∀ x ∈ o, isAlertOut x = false := by
  induction ups generalizing s o s1 with
  | nil =>
    cases h
    intro x hx
    cases hx
  | cons u us ih =>
    unfold processUpdates at h
    rcases h1 : processUpdate s u with e | ⟨sa, oa⟩ <;> simp only [h1] at h
    · cases h
    · rcases h2 : processUpdates sa us with e | ⟨sb, ob⟩ <;> simp only [h2] at h
      · cases h
      · cases h
        intro x hx
        rcases List.mem_append.mp hx with hx | hx
        · exact processUpdate_out h1 x hx
        · exact ih h2 x hx

/-- Batch drain preserves the both-limits-or-neither invariant. -/
lemma processUpdates_both {s : MonitorState} {ups : List Update} {s1 : MonitorState}
    {o : List Output} (h : processUpdates s ups = .ok (s1, o)) (hb : bothOrNoneB s = true) :
    bothOrNoneB s1 = true := by
  induction ups generalizing s o s1 with
  | nil =>
    cases h
    exact hb
  | cons u us ih =>
    unfold processUpdates at h
    rcases h1 : processUpdate s u with e | ⟨sa, oa⟩ <;> simp only [h1] at h
    · cases h
    · rcases h2 : processUpdates sa us with e | ⟨sb, ob⟩ <;> simp only [h2] at h
      · cases h
      · cases h
        exact ih h2 (processUpdate_both h1 hb)

/-- The price check never touches the limits. -/
lemma pricePhase_limits (s : MonitorState) (pr : Option ℚ) :
    (pricePhase s pr).1.lower_limit = s.lower_limit ∧
      (pricePhase s pr).1.upper_limit = s.upper_limit := by
  obtain ⟨lo, hi, a, cur⟩ := s
  cases lo <;> cases hi <;> cases pr <;> simp [pricePhase] <;> split_ifs <;> simp

/-- The price check is skipped entirely while either limit is unset. -/
lemma pricePhase_unconfig {s : MonitorState} (h : configuredB s = false) (pr : Option ℚ) :
    pricePhase s pr = (s, []) := by
  obtain ⟨lo, hi, a, cur⟩ := s
  cases lo <;> cases hi <;> simp_all [configuredB, pricePhase]

/-- The price check never changes whether the monitor is configured. -/
lemma pricePhase_configuredB (s : MonitorState) (pr : Option ℚ) :
    configuredB (pricePhase s pr).1 = configuredB s := by
  obtain ⟨h1, h2⟩ := pricePhase_limits s pr
  simp [configuredB, h1, h2]

/-- Per-evaluation accounting: one alert notification goes out exactly when
the evaluation is a transition into Alerting. -/
lemma alerts_step (s : MonitorState) (p : ℚ) :
    alertsEmitted s p = (if transAt s p then 1 else 0) := by
  obtain ⟨lo, hi, a, cur⟩ := s
  cases lo <;> cases hi <;> cases a <;>
    simp only [alertsEmitted, transAt, evalStep, pricePhase, isAlertingB, configuredB] <;>
    split_ifs <;>
    simp_all [isAlertOut, List.countP, List.countP.go]

/-- The price check never changes the both-limits-or-neither invariant. -/
lemma pricePhase_both (s : MonitorState) (pr : Option ℚ) :
    bothOrNoneB (pricePhase s pr).1 = bothOrNoneB s := by
  obtain ⟨h1, h2⟩ := pricePhase_limits s pr
  simp [bothOrNoneB, h1, h2]

/-- A successful iteration preserves the both-limits-or-neither invariant. -/
lemma iteration_both {s : MonitorState} {ups : List Update} {price : Option ℚ}
    {s' : MonitorState} {out : List Output} (h : iteration s ups price = .ok (s', out))
    (hb : bothOrNoneB s = true) : bothOrNoneB s' = true := by
  unfold iteration at h
  rcases h1 : processUpdates s ups with e | ⟨sa, oa⟩ <;> simp only [h1] at h
  · cases h
  · cases h
    rw [pricePhase_both]
    exact processUpdates_both h1 hb

/-- A successful run of iterations preserves the both-limits-or-neither
invariant. -/
lemma runSteps_both {steps : List (List Update × Option ℚ)} {s : MonitorState}
    {s' : MonitorState} {out : List Output} (h : runSteps s steps = .ok (s', out))
    (hb : bothOrNoneB s = true) : bothOrNoneB s' = true := by
  induction steps generalizing s out s' with
  | nil =>
    cases h
    exact hb
  | cons st rest ih =>
    obtain ⟨ups, pr⟩ := st
    unfold runSteps at h
    rcases h1 : iteration s ups pr with e | ⟨sa, oa⟩ <;> simp only [h1] at h
    · cases h
    · rcases h2 : runSteps sa rest with e | ⟨sb, ob⟩ <;> simp only [h2] at h
      · cases h
      · cases h
        exact ih h2 (iteration_both h1 hb)

/-! Theorems for the frozen claims. -/

/-- C7: every non-fatal external failure reaches the loop only as an empty
result: a failed price fetch (`none` from `get_token_price`) leaves the
bounds and alert state untouched and skips the evaluation, a failed
poll (empty update list from `get_telegram_updates`) leaves the iteration
processing no commands, and a whole iteration under both failures returns
normally (`.ok`) with the state unchanged and nothing sent. -/
theorem failures_absorbed (s : MonitorState) :
    iteration s [] none = .ok (s, []) ∧ pricePhase s none = (s, []) ∧
      processUpdates s [] = .ok (s, []) := by
  have hp : pricePhase s none = (s, []) := by
    obtain ⟨lo, hi, a, cur⟩ := s
    cases lo <;> cases hi <;> simp [pricePhase]
  refine ⟨?_, hp, rfl⟩
  simp [iteration, processUpdates, hp]

/-- C10: an inbound update without an `update_id` field is skipped entirely:
the state (cursor included) is unchanged and nothing is parsed, applied or
sent. -/
theorem update_without_id_skipped (s : MonitorState) (u : Update)
    (h : u.update_id = none) :
    processUpdate s u = .ok (s, []) := by
  unfold processUpdate
  rw [h]

/-- C10 witness: a concrete update carrying a command text but no
`update_id` is skipped. -/
theorem update_without_id_skipped_witness :
    processUpdate initialState ⟨none, some ("monitor-mps 1 2".data)⟩ = .ok (initialState, []) :=
  update_without_id_skipped initialState ⟨none, some ("monitor-mps 1 2".data)⟩ rfl

/-- C2 (code bug): the claim says malformed command text is always silently
discarded and never halts the loop, but the regex class `[\d\.]+` also
matches group texts that are not float literals; on the inbound text
`monitor-mps . .` the match succeeds and `float(".")` raises an uncaught
`ValueError`, which unwinds the iteration (and the process). -/
theorem malformed_command_crashes_loop :
    iteration initialState [⟨some 1, some ("monitor-mps . .".data)⟩] none =
      .error .valueError := by decide

/-- C6: in state Armed (configured, flag clear) evaluating a price moves to
Alerting with exactly one alert notification iff the price is strictly
outside `[lower, upper]`; a price inside the closed interval — the bounds
themselves included, since the script compares with strict `<` and `>` —
keeps the state Armed and sends nothing. -/
theorem armed_evaluate_iff_out_of_bounds (s : MonitorState) (lo hi p : ℚ)
    (hlo : s.lower_limit = some lo) (hhi : s.upper_limit = some hi)
    (ha : s.alert_sent = false) :
    (pricePhase s (some p) = ({ s with alert_sent := true }, [Output.alert p]) ↔
      (p < lo ∨ hi < p)) ∧
      (lo ≤ p → p ≤ hi → pricePhase s (some p) = (s, [])) := by
  obtain ⟨lo?, hi?, a, cur⟩ := s
  cases hlo
  cases hhi
  cases ha
  constructor
  · constructor
    · intro h
      by_contra hin
      simp [pricePhase, hin] at h
    · intro h
      simp [pricePhase, h]
  · intro h1 h2
    have hin : ¬(p < lo ∨ hi < p) := by
      push_neg
      exact ⟨h1, h2⟩
    simp [pricePhase, hin]

/-- C6 witness: with bounds `(1, 2)` and the flag clear, price `3` alerts
once and moves to Alerting, while the boundary price `2` is in bounds and is
a no-op. -/
theorem armed_evaluate_iff_out_of_bounds_witness :
    pricePhase ⟨some 1, some 2, false, none⟩ (some 3) =
        (⟨some 1, some 2, true, none⟩, [Output.alert 3]) ∧
      pricePhase ⟨some 1, some 2, false, none⟩ (some 2) = (⟨some 1, some 2, false, none⟩, []) :=
  ⟨(armed_evaluate_iff_out_of_bounds ⟨some 1, some 2, false, none⟩ 1 2 3 rfl rfl rfl).1.mpr
      (by norm_num),
    (armed_evaluate_iff_out_of_bounds ⟨some 1, some 2, false, none⟩ 1 2 2 rfl rfl rfl).2
      (by norm_num) (by norm_num)⟩

/-- C8: while the monitor is unconfigured no price evaluation happens — the
price phase ignores whatever price the oracle would return and changes
nothing — and an iteration that ends still unconfigured sends no alert
notification at all. -/
theorem unconfigured_no_evaluation_no_alert (s : MonitorState)
    (h : configuredB s = false) :
    (∀ pr : Option ℚ, pricePhase s pr = (s, [])) ∧
      (∀ ups price s' out, iteration s ups price = .ok (s', out) →
        configuredB s' = false → ∀ x ∈ out, isAlertOut x = false) := by
  refine ⟨fun pr => pricePhase_unconfig h pr, ?_⟩
  intro ups price s' out hit hs' x hx
  unfold iteration at hit
  rcases h1 : processUpdates s ups with e | ⟨sa, oa⟩ <;> simp only [h1] at hit
  · cases hit
  · cases hit
    have hsa : configuredB sa = false := by
      rw [← pricePhase_configuredB sa price]
      exact hs'
    rw [pricePhase_unconfig hsa price] at hx
    rcases List.mem_append.mp hx with hx | hx
    · exact processUpdates_out h1 x hx
    · cases hx

/-- C8 witness: the initial (unconfigured) state ignores an available price. -/
theorem unconfigured_no_evaluation_no_alert_witness :
    pricePhase initialState (some 3) = (initialState, []) :=
  (unconfigured_no_evaluation_no_alert initialState (by decide)).1 (some 3)

/-- C1: over any sequence of observed prices, the number of alert
notifications sent equals the number of transitions into Alerting; an
evaluation while already Alerting sends nothing; and an evaluation from
Alerting either stays Alerting or returns to Armed, so a second transition
into Alerting needs an intervening return to Armed. -/
theorem alert_count_eq_alerting_transitions (s : MonitorState) (ps : List ℚ) :
    countAlertsRun s ps = countTransRun s ps ∧
      (∀ p, isAlertingB s = true → alertsEmitted s p = 0) ∧
      (∀ p, isAlertingB s = true →
        isAlertingB (evalStep s p) = true ∨ isArmedB (evalStep s p) = true) := by
  refine ⟨?_, ?_, ?_⟩
  · induction ps generalizing s with
    | nil => rfl
    | cons p ps ih =>
      simp only [countAlertsRun, countTransRun, alerts_step, ih]
  · intro p hA
    rw [alerts_step]
    simp [transAt, hA]
  · intro p hA
    have hA' : configuredB s = true ∧ s.alert_sent = true := by
      simpa [isAlertingB] using hA
    have hc : configuredB (evalStep s p) = true := by
      rw [evalStep, pricePhase_configuredB]
      exact hA'.1
    cases hf : (evalStep s p).alert_sent
    · right
      simp [isArmedB, hc, hf]
    · left
      simp [isAlertingB, hc, hf]

/-- C1 witness: with bounds `(1, 2)`, the single out-of-bounds price `3`
yields one alert and one transition, and an already-Alerting state sends no
alert on a further out-of-bounds price. -/
theorem alert_count_eq_alerting_transitions_witness :
    countAlertsRun ⟨some 1, some 2, false, none⟩ [3] =
        countTransRun ⟨some 1, some 2, false, none⟩ [3] ∧
      alertsEmitted ⟨some 1, some 2, true, none⟩ 9 = 0 :=
  ⟨(alert_count_eq_alerting_transitions ⟨some 1, some 2, false, none⟩ [3]).1,
    (alert_count_eq_alerting_transitions ⟨some 1, some 2, true, none⟩ []).2.1 9 (by decide)⟩

/-- C9: the two limits are both unset at process start, and every successful
update application, iteration, and multi-iteration run keeps them both set or
both unset — the configured-ness guard can never see exactly one limit set. -/
theorem limits_both_or_none :
    bothOrNoneB initialState = true ∧
      (∀ s u s' out, bothOrNoneB s = true → processUpdate s u = .ok (s', out) →
        bothOrNoneB s' = true) ∧
      (∀ s steps s' out, bothOrNoneB s = true → runSteps s steps = .ok (s', out) →
        bothOrNoneB s' = true) :=
  ⟨rfl, fun _ _ _ _ hb h => processUpdate_both h hb,
    fun _ _ _ _ hb h => runSteps_both h hb⟩

/-- C9 witness: the invariant holds at start and after a concrete run that
advances the cursor. -/
theorem limits_both_or_none_witness :
    bothOrNoneB initialState = true ∧ bothOrNoneB ⟨none, none, false, some 7⟩ = true :=
  ⟨limits_both_or_none.1,
    limits_both_or_none.2.2 initialState [([⟨some 5, none⟩, ⟨some 6, none⟩], none)]
      ⟨none, none, false, some 7⟩ [] (by decide) (by decide)⟩

/-- C3: an update carrying a well-formed command text (the regex matches and
both groups convert) puts the monitor in Armed with exactly the parsed
bounds, clears any pending alert, sends the confirmation echoing the accepted
values, and advances the cursor — whatever the prior state was. -/
theorem configure_command_arms_and_sets_bounds (s : MonitorState) (i : ℤ)
    (t g1 g2 : List Char) (L U : ℚ)
    (hm : reMatchMonitorMps (pyStrip t) = some (g1, g2))
    (h1 : pyFloat g1 = some L) (h2 : pyFloat g2 = some U) :
    processUpdate s ⟨some i, some t⟩ =
      .ok ({ lower_limit := some L, upper_limit := some U, alert_sent := false, last_update_id := some (i + 1) },
        [Output.confirmation L U]) := by
  unfold processUpdate applyText
  simp only [hm, h1, h2]

/-- C3 witness: `monitor-mps 1 2` from the Alerting state with other bounds
re-arms with bounds `(1, 2)` and sends the confirmation. -/
theorem configure_command_arms_and_sets_bounds_witness :
    processUpdate ⟨some 5, some 6, true, some 3⟩ ⟨some 3, some ("monitor-mps 1 2".data)⟩ =
      .ok (⟨some 1, some 2, false, some (3 + 1)⟩, [Output.confirmation 1 2]) :=
  configure_command_arms_and_sets_bounds ⟨some 5, some 6, true, some 3⟩ 3
    ("monitor-mps 1 2".data) ("1".data) ("2".data) 1 2 (by decide)
    (by rw [pyFloat_eval ("1".data) 1 0 0 (by decide) (by decide) (by decide) (by decide)]; norm_num)
    (by rw [pyFloat_eval ("2".data) 2 0 0 (by decide) (by decide) (by decide) (by decide)]; norm_num)

/-- Cursor bookkeeping over a batch in which every update carries an
identifier: either the batch is empty, or the final cursor is the last
identifier plus one. -/
lemma processUpdates_cursor {ups : List Update} {s : MonitorState} {ids : List ℤ}
    {s' : MonitorState} {out : List Output}
    (hids : ups.map Update.update_id = ids.map some)
    (hok : processUpdates s ups = .ok (s', out)) :
    (ids = [] ∧ s' = s) ∨ ∃ k, ids.getLast? = some k ∧ s'.last_update_id = some (k + 1) := by
  induction ups generalizing s ids out s' with
  | nil =>
    cases ids with
    | nil =>
      cases hok
      exact .inl ⟨rfl, rfl⟩
    | cons i ids' => simp at hids
  | cons u us ih =>
    cases ids with
    | nil => simp at hids
    | cons i ids' =>
      simp only [List.map_cons, List.cons.injEq] at hids
      obtain ⟨hu, hrest⟩ := hids
      unfold processUpdates at hok
      rcases h1 : processUpdate s u with e | ⟨sa, oa⟩ <;> simp only [h1] at hok
      · cases hok
      · rcases h2 : processUpdates sa us with e | ⟨sb, ob⟩ <;> simp only [h2] at hok
        · cases hok
        · cases hok
          have hcur : sa.last_update_id = some (i + 1) := processUpdate_cursor hu h1
          rcases ih hrest h2 with ⟨hids0, rfl⟩ | ⟨k, hk, hc⟩
          · subst hids0
            exact .inr ⟨i, rfl, hcur⟩
          · right
            refine ⟨k, ?_, hc⟩
            cases ids' with
            | nil => simp at hk
            | cons j ids'' =>
              rw [List.getLast?_cons_cons]
              exact hk

/-- C4: after a successful drain of a nonempty batch whose updates carry the
ascending identifiers `i1 < … < ik`, the cursor is exactly `ik + 1`
regardless of the message texts (so of which commands parsed), and the next
poll is issued with that cursor as its offset. -/
theorem cursor_after_batch (s : MonitorState) (ups : List Update) (ids : List ℤ)
    (s' : MonitorState) (out : List Output)
    (hids : ups.map Update.update_id = ids.map some)
    (hne : ids ≠ [])
    (hsorted : ids.Sorted (· < ·))
    (hok : processUpdates s ups = .ok (s', out)) :
    ∃ k, ids.getLast? = some k ∧ s'.last_update_id = some (k + 1) ∧
      pollOffset s' = some (k + 1) := by
  rcases processUpdates_cursor hids hok with ⟨h0, _⟩ | ⟨k, hk, hc⟩
  · exact absurd h0 hne
  · exact ⟨k, hk, hc, hc⟩

/-- C4 witness: identifiers 5 and 6, one command text of them malformed, end
with cursor (and next poll offset) 7. -/
theorem cursor_after_batch_witness :
    ∃ k, ([5, 6] : List ℤ).getLast? = some k ∧
      MonitorState.last_update_id ⟨none, none, false, some 7⟩ = some (k + 1) ∧
      pollOffset ⟨none, none, false, some 7⟩ = some (k + 1) :=
  cursor_after_batch initialState [⟨some 5, some ("hello".data)⟩, ⟨some 6, none⟩] [5, 6]
    ⟨none, none, false, some 7⟩ [] (by decide) (by decide) (by decide) (by decide)

/-- C5: when the transport honors the offset contract (every delivered
identifier is at least the current cursor) and delivers ascending
identifiers, a successful poll-and-process step never decreases the cursor,
and every identifier processed in the step ends strictly below the new
cursor — so an update with that identifier can never be re-polled and
processed again. -/
theorem cursor_monotone (s : MonitorState) (ups : List Update) (ids : List ℤ)
    (s' : MonitorState) (out : List Output)
    (hids : ups.map Update.update_id = ids.map some)
    (hsorted : ids.Sorted (· < ·))
    (hhon : honorsOffset s.last_update_id ids = true)
    (hok : processUpdates s ups = .ok (s', out)) :
    cursorLEb s.last_update_id s'.last_update_id = true ∧
      ∀ i ∈ ids, ∃ c, s'.last_update_id = some c ∧ i < c := by
  induction ups generalizing s ids out s' with
  | nil =>
    cases ids with
    | nil =>
      cases hok
      refine ⟨?_, by intro i hi; cases hi⟩
      cases hcur : s.last_update_id <;> simp [cursorLEb]
    | cons i ids' => simp at hids
  | cons u us ih =>
    cases ids with
    | nil => simp at hids
    | cons i ids' =>
      simp only [List.map_cons, List.cons.injEq] at hids
      obtain ⟨hu, hrest⟩ := hids
      unfold processUpdates at hok
      rcases h1 : processUpdate s u with e | ⟨sa, oa⟩ <;> simp only [h1] at hok
      · cases hok
      · rcases h2 : processUpdates sa us with e | ⟨sb, ob⟩ <;> simp only [h2] at hok
        · cases hok
        · cases hok
          have hcur : sa.last_update_id = some (i + 1) := processUpdate_cursor hu h1
          have hlt : ∀ j ∈ ids', i < j := (List.pairwise_cons.mp hsorted).1
          have hhon' : honorsOffset sa.last_update_id ids' = true := by
            rw [hcur]
            simp only [honorsOffset, List.all_eq_true, decide_eq_true_eq]
            intro j hj
            exact Int.add_one_le_iff.mpr (hlt j hj)
          obtain ⟨hle, hall⟩ :=
            ih sa ids' s' ob hrest (List.pairwise_cons.mp hsorted).2 hhon' h2
          rw [hcur] at hle
          rcases hc : s'.last_update_id with _ | c
          · rw [hc] at hle
            simp [cursorLEb] at hle
          · rw [hc] at hle
            have hle' : i + 1 ≤ c := by simpa [cursorLEb] using hle
            constructor
            · rcases hs : s.last_update_id with _ | c0
              · simp [cursorLEb]
              · rw [hs] at hhon
                simp only [honorsOffset, List.all_eq_true, decide_eq_true_eq] at hhon
                have hc0 : c0 ≤ i := hhon i (List.mem_cons_self i ids')
                simp only [cursorLEb, decide_eq_true_eq]
                omega
            · intro j hj
              rcases List.mem_cons.mp hj with rfl | hj
              · exact ⟨c, rfl, by omega⟩
              · obtain ⟨c1, hc1, hjc⟩ := hall j hj
                rw [hc] at hc1
                exact ⟨c1, hc1, hjc⟩

/-- C5 witness: starting from cursor 4, an honoring batch with identifiers 5
and 6 moves the cursor to 7 without ever decreasing it, and both processed
identifiers end below the new cursor. -/
theorem cursor_monotone_witness :
    cursorLEb (some 4) (some 7) = true ∧
      ∀ i ∈ ([5, 6] : List ℤ), ∃ c,
        MonitorState.last_update_id ⟨none, none, false, some 7⟩ = some c ∧ i < c :=
  cursor_monotone ⟨none, none, false, some 4⟩ [⟨some 5, none⟩, ⟨some 6, none⟩] [5, 6]
    ⟨none, none, false, some 7⟩ [] (by decide) (by decide) (by decide) (by decide)

end CheckMps
